import Mathlib

/-
Shallow embedding of the NOR-flash driver in src/littleFS/src/nor_flash.c
(with constants from src/littleFS/src/nor_flash.h).

Machine integers are modelled as Nat with explicit reduction mod 2^32 where
the C code uses uint32_t arithmetic that can wrap.  The SPI transport, the
Zephyr flash API and the littleFS library calls are external collaborators:
they enter the embedding as explicit oracle parameters (their C return
values), while all control flow, address arithmetic and command-frame
construction is translated from the source.

Error codes (Zephyr minimal libc / littleFS lfs.h):
  -EIO = -5, -EINVAL = -22, -ENODEV = -19, -ETIMEDOUT = -116,
  LFS_ERR_OK = 0, LFS_ERR_IO = -5, LFS_ERR_NOENT = -2, LFS_ERR_NOSPC = -28.
-/

/-- nor_flash.h: FLASH_PAGE_SIZE. -/
def FLASH_PAGE_SIZE : Nat := 256

/-- nor_flash.h: FLASH_SECTOR_SIZE. -/
def FLASH_SECTOR_SIZE : Nat := 4096

/-- nor_flash.h: the chip-size table selected by FLASH1_SIZE_MB / FLASH2_SIZE_MB
(the preprocessor conditional chain permits 64, 32 or 16 MiB; anything else
is a compile error, modelled as none). -/
def chip_size_bytes (mb : Nat) : Option Nat :=
  if mb = 64 then some 67108864
  else if mb = 32 then some 33554432
  else if mb = 16 then some 16777216
  else none

/-- nor_flash.h: FLASH1_CHIP_SIZE_BYTES with the default FLASH1_SIZE_MB = 16. -/
def FLASH1_CHIP_SIZE_BYTES : Nat := 16777216

/-- nor_flash.h: FLASH2_CHIP_SIZE_BYTES with the default FLASH2_SIZE_MB = 64. -/
def FLASH2_CHIP_SIZE_BYTES : Nat := 67108864

/-- nor_flash.h: FLASH1_CHIP_JEDEC_ID with the default FLASH1_SIZE_MB = 16. -/
def FLASH1_CHIP_JEDEC_ID : Nat := 0xC22018

/-- lfs.h: LFS_ERR_IO, the filesystem's single generic I/O error code.
Numerically equal to Zephyr's -EIO. -/
def lfs_err_io : Int := -5

/-- lfs.h: LFS_ERR_NOENT, the file-not-found error code. -/
def lfs_err_noent : Int := -2

/-- nor_flash.h: flash_device_t, the logical device selector. -/
inductive flash_device_t where
  | FLASH1 : flash_device_t
  | FLASH2 : flash_device_t
deriving DecidableEq

/-- nor_flash.c: nor_flash_get_device_size — FLASH1 reports flash1.size_bytes
(set to FLASH1_CHIP_SIZE_BYTES in flash1_init), FLASH2 reports
FLASH2_CHIP_SIZE_BYTES. -/
def nor_flash_get_device_size (device : flash_device_t) : Nat :=
  match device with
  | flash_device_t.FLASH1 => FLASH1_CHIP_SIZE_BYTES
  | flash_device_t.FLASH2 => FLASH2_CHIP_SIZE_BYTES

/-
Flash1 SPI command frames.  The C code builds each frame as
  cmd[0] = opcode; cmd[1] = (addr >> 16) & 0xFF; cmd[2] = (addr >> 8) & 0xFF;
  cmd[3] = addr & 0xFF;
i.e. exactly three address bytes holding the low 24 bits of the uint32
address.
-/

/-- flash1_read_data: the 4-byte command frame for CMD_READ_DATA (0x03). -/
def read_cmd (addr : Nat) : List Nat :=
  [0x03, addr / 65536 % 256, addr / 256 % 256, addr % 256]

/-- flash1_prog_data: the command frame for CMD_PAGE_PROGRAM (0x02) —
opcode, three address bytes, then the data of one page-bounded segment. -/
def prog_cmd (addr : Nat) (seg : List Nat) : List Nat :=
  [0x02, addr / 65536 % 256, addr / 256 % 256, addr % 256] ++ seg

/-- flash1_erase_sector: the 4-byte command frame for CMD_SECTOR_ERASE (0x20). -/
def erase_cmd (addr : Nat) : List Nat :=
  [0x20, addr / 65536 % 256, addr / 256 % 256, addr % 256]

/-- flash1_read_data (nor_flash.c lines 163-174): rejects sizes above 512
with -EINVAL, otherwise issues the single read transaction through
flash1_transceive.  The transport is the oracle tr, mapping the transmitted
command frame and expected response length to the response bytes or a
negative errno. -/
def flash1_read_data (tr : List Nat → Nat → Except Int (List Nat))
    (addr : Nat) (size : Nat) : Except Int (List Nat) :=
  if size > 512 then Except.error (-22)
  else tr (read_cmd addr) size

/-- flash1_wait_ready's polling loop: fuel counts the remaining iterations
of the for-loop (1000 at entry), i is the index of the next status read.
The status oracle gives the result of the i-th flash1_read_status call.
Returns the C return value paired with the number of status reads performed
(ghost instrumentation of the call trace).  A failed status read returns
-EIO; a clear busy bit (bit 0) returns 0; fuel exhaustion returns
-ETIMEDOUT. -/
def wait_ready_loop (status : Nat → Except Int Nat) (i : Nat) (fuel : Nat) :
    Int × Nat :=
  match fuel with
  | 0 => (-116, i)
  | fuel' + 1 =>
    match status i with
    | Except.error _ => (-5, i + 1)
    | Except.ok s => if s % 2 = 0 then (0, i + 1)
                     else wait_ready_loop status (i + 1) fuel'

/-- flash1_wait_ready (nor_flash.c lines 134-143): up to 1000 polls of the
status register's busy bit. -/
def flash1_wait_ready (status : Nat → Except Int Nat) : Int × Nat :=
  wait_ready_loop status 0 1000

/-- flash1_init (nor_flash.c lines 211-262), from the point where the
devicetree handles and the JEDEC identity determine the outcome: spi_ready
and gpio_ready model device_is_ready on the SPI and GPIO devices, idRead
models the flash1_read_id result (three identity bytes or a negative
errno).  The identity check compares (id0 << 16) | (id1 << 8) | id2 against
FLASH1_CHIP_JEDEC_ID; on mismatch it fails with -ENODEV only when the
vendor byte id0 is not Macronix (0xC2). -/
def flash1_init (spi_ready : Bool) (gpio_ready : Bool)
    (idRead : Except Int (Nat × Nat × Nat)) : Int :=
  if spi_ready = false then -19
  else if gpio_ready = false then -19
  else
    match idRead with
    | Except.error _ => -5
    | Except.ok (i0, i1, i2) =>
      if i0 * 65536 + i1 * 256 + i2 ≠ FLASH1_CHIP_JEDEC_ID then
        if i0 ≠ 0xC2 then -19 else 0
      else 0

/-- Events observable at the Flash1 protocol-driver level inside
flash1_prog_data and flash1_erase_sector: a write-enable command, a data
transaction (full command frame), a busy-poll wait. -/
inductive PEv where
  | we : PEv
  | xfer : List Nat → PEv
  | wait : PEv
deriving DecidableEq

/-- Oracle for the three fallible sub-operations of the k-th loop iteration
of flash1_prog_data: the C return values of flash1_write_enable,
flash1_transceive (the page-program frame) and flash1_wait_ready. -/
structure ProgEnv where
  weRes : Nat → Int
  ppRes : Nat → Int
  waitRes : Nat → Int

/-- flash1_prog_data (nor_flash.c lines 176-200): splits the write at every
256-byte page boundary.  Each iteration computes page_off = addr % 256 and
write_size = min(size, 256 - page_off), issues write-enable, the
page-program frame, then busy-polls; any sub-operation failure returns
-EIO immediately.  addr advances with uint32 wrap-around.  k is the index
of the current loop iteration in the oracle; the returned event list is
the trace of issued operations. -/
def flash1_prog_data (env : ProgEnv) (k : Nat) (addr : Nat) (data : List Nat) :
    Int × List PEv :=
  if h : data = [] then (0, [])
  else
    let ws := min data.length (256 - addr % 256)
    if env.weRes k ≠ 0 then (-5, [PEv.we])
    else if env.ppRes k ≠ 0 then
      (-5, [PEv.we, PEv.xfer (prog_cmd addr (data.take ws))])
    else if env.waitRes k ≠ 0 then
      (-5, [PEv.we, PEv.xfer (prog_cmd addr (data.take ws)), PEv.wait])
    else
      let rest := flash1_prog_data env (k + 1) ((addr + ws) % 4294967296)
        (data.drop ws)
      (rest.1,
       PEv.we :: PEv.xfer (prog_cmd addr (data.take ws)) :: PEv.wait :: rest.2)
termination_by data.length
decreasing_by
  simp only [List.length_drop]
  have hl : 0 < data.length := List.length_pos.mpr h
  have hm : addr % 256 < 256 := Nat.mod_lt _ (by omega)
  omega

/-- The page-bounded segment decomposition performed by flash1_prog_data's
loop: the list of (segment start address, segment bytes) pairs, in issue
order. -/
def prog_segments (addr : Nat) (data : List Nat) : List (Nat × List Nat) :=
  if h : data = [] then []
  else
    let ws := min data.length (256 - addr % 256)
    (addr, data.take ws) ::
      prog_segments ((addr + ws) % 4294967296) (data.drop ws)
termination_by data.length
decreasing_by
  simp only [List.length_drop]
  have hl : 0 < data.length := List.length_pos.mpr h
  have hm : addr % 256 < 256 := Nat.mod_lt _ (by omega)
  omega

/-- Contiguity of a segment list starting at a given address: each segment
begins exactly where the previous one ended (with uint32 wrap, as in the C
loop's addr += write_size). -/
def seg_contiguous : Nat → List (Nat × List Nat) → Prop
  | _, [] => True
  | a, p :: rest => p.1 = a ∧ seg_contiguous ((a + p.2.length) % 4294967296) rest

/-- The three protocol events one successful loop iteration of
flash1_prog_data issues for a segment. -/
def seg_events (p : Nat × List Nat) : List PEv :=
  [PEv.we, PEv.xfer (prog_cmd p.1 p.2), PEv.wait]

/-- All three sub-operations of loop iteration i succeed. -/
def okAt (env : ProgEnv) (i : Nat) : Prop :=
  env.weRes i = 0 ∧ env.ppRes i = 0 ∧ env.waitRes i = 0

instance (env : ProgEnv) (i : Nat) : Decidable (okAt env i) := by
  unfold okAt; infer_instance

/-- Oracle for the sub-operations of flash1_erase_sector: the C return
values of flash1_write_enable, flash1_transceive (the erase frame) and
flash1_wait_ready. -/
structure EraseEnv where
  weRes : Int
  trRes : Int
  waitRes : Int

/-- flash1_erase_sector (nor_flash.c lines 202-208): write-enable, the
sector-erase frame, then busy-poll; returns the wait result directly. -/
def flash1_erase_sector (env : EraseEnv) (addr : Nat) : Int × List PEv :=
  if env.weRes ≠ 0 then (-5, [PEv.we])
  else if env.trRes ≠ 0 then (-5, [PEv.we, PEv.xfer (erase_cmd addr)])
  else (env.waitRes, [PEv.we, PEv.xfer (erase_cmd addr), PEv.wait])

/-- The byte-address computation of the littleFS block-device callbacks:
block * FLASH_SECTOR_SIZE + off in uint32 arithmetic. -/
def block_addr (block : Nat) (off : Nat) : Nat :=
  (block * FLASH_SECTOR_SIZE + off) % 4294967296

/-- lfs1_read (nor_flash.c lines 297-301): byte address from block and
offset, delegate to flash1_read_data, collapse every driver error to
LFS_ERR_IO. -/
def lfs1_read (tr : List Nat → Nat → Except Int (List Nat))
    (block : Nat) (off : Nat) (size : Nat) : Int :=
  match flash1_read_data tr (block_addr block off) size with
  | Except.ok _ => 0
  | Except.error _ => lfs_err_io

/-- lfs1_prog (nor_flash.c lines 303-307): byte address from block and
offset, delegate to flash1_prog_data, collapse every driver error to
LFS_ERR_IO. -/
def lfs1_prog (env : ProgEnv) (block : Nat) (off : Nat) (data : List Nat) :
    Int :=
  if (flash1_prog_data env 0 (block_addr block off) data).1 = 0 then 0
  else lfs_err_io

/-- lfs1_erase (nor_flash.c lines 309-313): byte address block *
FLASH_SECTOR_SIZE, delegate to flash1_erase_sector, collapse every driver
error to LFS_ERR_IO. -/
def lfs1_erase (env : EraseEnv) (block : Nat) : Int :=
  if (flash1_erase_sector env (block_addr block 0)).1 = 0 then 0
  else lfs_err_io

/-- lfs1_sync (nor_flash.c line 315): returns LFS_ERR_OK and performs no
device operation (empty trace). -/
def lfs1_sync : Int × List PEv := (0, [])

/-- lfs2_read (nor_flash.c lines 321-326): byte address from block and
offset, delegate to the Zephyr flash_read vendor primitive (oracle fr over
address and length), collapse every nonzero return to LFS_ERR_IO. -/
def lfs2_read (fr : Nat → Nat → Int) (block : Nat) (off : Nat) (size : Nat) :
    Int :=
  if fr (block_addr block off) size = 0 then 0 else lfs_err_io

/-- lfs2_prog (nor_flash.c lines 328-333): byte address from block and
offset, delegate to the Zephyr flash_write vendor primitive (oracle fw over
address and data), collapse every nonzero return to LFS_ERR_IO. -/
def lfs2_prog (fw : Nat → List Nat → Int) (block : Nat) (off : Nat)
    (data : List Nat) : Int :=
  if fw (block_addr block off) data = 0 then 0 else lfs_err_io

/-- lfs2_erase (nor_flash.c lines 335-340): byte address block *
FLASH_SECTOR_SIZE, delegate to the Zephyr flash_erase vendor primitive at
that address with length FLASH_SECTOR_SIZE, collapse every nonzero return
to LFS_ERR_IO. -/
def lfs2_erase (fe : Nat → Nat → Int) (block : Nat) : Int :=
  if fe (block_addr block 0) FLASH_SECTOR_SIZE = 0 then 0 else lfs_err_io

/-- lfs2_sync (nor_flash.c line 342): returns LFS_ERR_OK and performs no
device operation (empty trace). -/
def lfs2_sync : Int × List PEv := (0, [])

/-- Mount-level events issued by lfs_init_mount: a mount attempt or a
format. -/
inductive MEv where
  | mount : MEv
  | format : MEv
deriving DecidableEq

/-- lfs_init_mount (nor_flash.c lines 348-371): try lfs_mount; on failure
lfs_format then lfs_mount again; -EIO if the format or the second mount
fails.  m1, f, m2 are the littleFS library's return values for the first
mount, the format and the post-format mount; the event list is the trace of
library calls issued. -/
def lfs_init_mount (m1 : Int) (f : Int) (m2 : Int) : Int × List MEv :=
  if m1 = 0 then (0, [MEv.mount])
  else if f ≠ 0 then (-5, [MEv.mount, MEv.format])
  else if m2 ≠ 0 then (-5, [MEv.mount, MEv.format, MEv.mount])
  else (0, [MEv.mount, MEv.format, MEv.mount])

/-
The littleFS library itself (lfs_file_open, lfs_file_write, lfs_file_read,
lfs_file_close and the mounted filesystem state) is part of this repository
(src/littleFS/LittleFS, included as "../LittleFS/lfs.h") but its sources
are not under src/; the definitions below are modelled from the spec.
-/

/-- Modelled from the spec: the mounted state of one littleFS instance, as
seen through the file API — a map from file names to byte contents
(spec sections 3 FilesystemMountState and 4.5), represented as an
association list with the most recent binding first. -/
def LfsState : Type := List (String × List Nat)

/-- Lookup of a file's committed content by name. -/
def lfs_lookup (st : LfsState) (name : String) : Option (List Nat) :=
  match st with
  | [] => none
  | (n, c) :: rest => if n = name then some c else lfs_lookup rest name

/-- Replace (or create) the binding of a name. -/
def lfs_insert (st : LfsState) (name : String) (content : List Nat) :
    LfsState :=
  (name, content) :: st

/-- The littleFS open flags used by nor_flash.c: LFS_O_RDONLY as false,
false, false; LFS_O_WRONLY | LFS_O_CREAT | LFS_O_TRUNC as the three
booleans wronly, creat, trunc. -/
structure OpenFlags where
  wronly : Bool
  creat : Bool
  trunc : Bool

/-- An open littleFS file handle: its name and its in-progress content. -/
structure LfsFile where
  fname : String
  content : List Nat

/-- Modelled from the spec: lfs_file_open (spec section 4.5 —
open-for-write-with-create-and-truncate, open read-only; a missing file
without the create flag is the not-found condition LFS_ERR_NOENT). -/
def lfs_file_open (st : LfsState) (name : String) (fl : OpenFlags) :
    Except Int LfsFile :=
  match lfs_lookup st name with
  | some c => Except.ok ⟨name, if fl.trunc then [] else c⟩
  | none =>
    if fl.creat then Except.ok ⟨name, []⟩ else Except.error lfs_err_noent

/-- Modelled from the spec: lfs_file_write appends the buffer to the open
file and returns the number of bytes written; a write that would exceed
the device capacity fails with LFS_ERR_NOSPC (-28) (spec sections 4.5 and
8: buffers up to the chip capacity round-trip). -/
def lfs_file_write (cap : Nat) (f : LfsFile) (data : List Nat) :
    Int × LfsFile :=
  if f.content.length + data.length ≤ cap then
    ((data.length : Int), ⟨f.fname, f.content ++ data⟩)
  else (-28, f)

/-- Modelled from the spec: lfs_file_read reads up to len bytes from the
start of the open file, returning the byte count and the bytes (spec
section 4.5: reads up to max_len). -/
def lfs_file_read (f : LfsFile) (len : Nat) : Int × List Nat :=
  ((min len f.content.length : Nat), f.content.take len)

/-- Modelled from the spec: lfs_file_close commits the handle's content to
the mounted state (spec section 3 FileHandle: closed on every exit path). -/
def lfs_file_close (st : LfsState) (f : LfsFile) : LfsState :=
  lfs_insert st f.fname f.content

/-- The pair of mounted filesystem states lfs1, lfs2 (nor_flash.c statics). -/
structure FsPair where
  fs1 : LfsState
  fs2 : LfsState

/-- The dispatcher's device selection: (device == FLASH1) ? &lfs1 : &lfs2. -/
def fs_of (st : FsPair) (device : flash_device_t) : LfsState :=
  match device with
  | flash_device_t.FLASH1 => st.fs1
  | flash_device_t.FLASH2 => st.fs2

/-- Write back the selected device's state. -/
def set_fs (st : FsPair) (device : flash_device_t) (l : LfsState) : FsPair :=
  match device with
  | flash_device_t.FLASH1 => ⟨l, st.fs2⟩
  | flash_device_t.FLASH2 => ⟨st.fs1, l⟩

/-- nor_flash_write_file (nor_flash.c lines 412-427): open with
LFS_O_WRONLY | LFS_O_CREAT | LFS_O_TRUNC, write the full buffer, close
(also on the error path), return 0 when the write result is nonnegative,
otherwise the write's error. -/
def nor_flash_write_file (st : FsPair) (device : flash_device_t)
    (filename : String) (data : List Nat) : Int × FsPair :=
  match lfs_file_open (fs_of st device) filename ⟨true, true, true⟩ with
  | Except.error e => (e, st)
  | Except.ok file =>
    let wr := lfs_file_write (nor_flash_get_device_size device) file data
    let st' := set_fs st device (lfs_file_close (fs_of st device) wr.2)
    (if wr.1 ≥ 0 then 0 else wr.1, st')

/-- nor_flash_read_file (nor_flash.c lines 429-444): open with
LFS_O_RDONLY, read up to len bytes, close, return the byte count (or the
open/read error) together with the bytes placed in the caller's buffer
(ghost).  The mounted state is unchanged. -/
def nor_flash_read_file (st : FsPair) (device : flash_device_t)
    (filename : String) (len : Nat) : Int × List Nat :=
  match lfs_file_open (fs_of st device) filename ⟨false, false, false⟩ with
  | Except.error e => (e, [])
  | Except.ok file => lfs_file_read file len

/-- nor_flash_write_struct (nor_flash.c lines 446-449): exactly
nor_flash_write_file. -/
def nor_flash_write_struct (st : FsPair) (device : flash_device_t)
    (filename : String) (data : List Nat) : Int × FsPair :=
  nor_flash_write_file st device filename data

/-- nor_flash_read_struct (nor_flash.c lines 451-460): delegate to
nor_flash_read_file with len = size; a negative result is passed through;
a byte count different from size returns -EIO; otherwise 0. -/
def nor_flash_read_struct (st : FsPair) (device : flash_device_t)
    (filename : String) (size : Nat) : Int :=
  let ret := (nor_flash_read_file st device filename size).1
  if ret < 0 then ret
  else if ret ≠ (size : Int) then -5
  else 0

/-
Helper lemmas.
-/

lemma prog_segments_nil (addr : Nat) : prog_segments addr [] = [] := by
  rw [prog_segments]
  simp

lemma prog_segments_cons (addr : Nat) (data : List Nat) (h : data ≠ []) :
    prog_segments addr data =
      (addr, data.take (min data.length (256 - addr % 256))) ::
        prog_segments
          ((addr + min data.length (256 - addr % 256)) % 4294967296)
          (data.drop (min data.length (256 - addr % 256))) := by
  rw [prog_segments]
  simp [h]

lemma flash1_prog_data_nil (env : ProgEnv) (k addr : Nat) :
    flash1_prog_data env k addr [] = (0, []) := by
  rw [flash1_prog_data]
  simp

lemma flash1_prog_data_cons (env : ProgEnv) (k addr : Nat) (data : List Nat)
    (h : data ≠ []) :
    flash1_prog_data env k addr data =
      (if env.weRes k ≠ 0 then ((-5 : Int), [PEv.we])
       else if env.ppRes k ≠ 0 then
        (-5, [PEv.we,
          PEv.xfer (prog_cmd addr
            (data.take (min data.length (256 - addr % 256))))])
       else if env.waitRes k ≠ 0 then
        (-5, [PEv.we,
          PEv.xfer (prog_cmd addr
            (data.take (min data.length (256 - addr % 256)))), PEv.wait])
       else
        ((flash1_prog_data env (k + 1)
            ((addr + min data.length (256 - addr % 256)) % 4294967296)
            (data.drop (min data.length (256 - addr % 256)))).1,
         PEv.we ::
          PEv.xfer (prog_cmd addr
            (data.take (min data.length (256 - addr % 256)))) ::
          PEv.wait ::
          (flash1_prog_data env (k + 1)
            ((addr + min data.length (256 - addr % 256)) % 4294967296)
            (data.drop (min data.length (256 - addr % 256)))).2)) := by
  rw [flash1_prog_data]
  simp [h]

/-- The minimum segment width of one loop iteration is at least 1 byte
when data remains. -/
lemma ws_pos (addr : Nat) (data : List Nat) (h : data ≠ []) :
    1 ≤ min data.length (256 - addr % 256) := by
  have hl : 0 < data.length := List.length_pos.mpr h
  have hm : addr % 256 < 256 := Nat.mod_lt _ (by omega)
  omega

/-- Every segment is nonempty and stays within one 256-byte page. -/
lemma prog_segments_page (n : Nat) : ∀ data : List Nat, data.length ≤ n →
    ∀ addr, ∀ p ∈ prog_segments addr data,
      p.2 ≠ [] ∧ p.1 % 256 + p.2.length ≤ 256 := by
  induction n with
  | zero =>
    intro data hlen addr p hp
    have hd : data = [] := by
      cases data with
      | nil => rfl
      | cons a as => simp at hlen
    rw [hd, prog_segments_nil] at hp
    simp at hp
  | succ n ih =>
    intro data hlen addr p hp
    by_cases hd : data = []
    · rw [hd, prog_segments_nil] at hp
      simp at hp
    · rw [prog_segments_cons addr data hd] at hp
      have hws := ws_pos addr data hd
      have hwle : min data.length (256 - addr % 256) ≤ data.length :=
        Nat.min_le_left _ _
      have hm : addr % 256 < 256 := Nat.mod_lt _ (by omega)
      rcases List.mem_cons.mp hp with heq | hmem
      · subst heq
        have hlt : (data.take (min data.length (256 - addr % 256))).length =
            min data.length (256 - addr % 256) := by
          simp
        have hwr : min data.length (256 - addr % 256) ≤ 256 - addr % 256 :=
          Nat.min_le_right _ _
        constructor
        · intro hc
          have hc' : data.take (min data.length (256 - addr % 256)) =
              ([] : List Nat) := hc
          have h0 : (data.take (min data.length (256 - addr % 256))).length =
              0 := by
            rw [hc']
            rfl
          rw [hlt] at h0
          omega
        · show addr % 256 +
            (data.take (min data.length (256 - addr % 256))).length ≤ 256
          rw [hlt]
          omega
      · exact ih (data.drop (min data.length (256 - addr % 256)))
          (by simp; omega) _ p hmem

/-- Main specification of the flash1_prog_data loop, generalized over the
starting iteration index k: success iff every segment's three
sub-operations succeed; on success the trace is write-enable,
page-program, busy-wait per segment; the first failing segment stops the
loop with -EIO, leaving no events beyond that segment. -/
lemma flash1_prog_data_spec (env : ProgEnv) (n : Nat) :
    ∀ data : List Nat, data.length ≤ n → ∀ addr k,
    ((flash1_prog_data env k addr data).1 = 0 ↔
      ∀ i < (prog_segments addr data).length, okAt env (k + i)) ∧
    ((∀ i < (prog_segments addr data).length, okAt env (k + i)) →
      flash1_prog_data env k addr data =
        (0, (prog_segments addr data).flatMap seg_events)) ∧
    (∀ j < (prog_segments addr data).length,
      (∀ i < j, okAt env (k + i)) → ¬ okAt env (k + j) →
      (flash1_prog_data env k addr data).1 = -5 ∧
      ∃ tail, (flash1_prog_data env k addr data).2 =
        ((prog_segments addr data).take j).flatMap seg_events ++ tail ∧
        tail.length ≤ 3) := by
  induction n with
  | zero =>
    intro data hlen addr k
    have hd : data = [] := by
      cases data with
      | nil => rfl
      | cons a as => simp at hlen
    subst hd
    rw [flash1_prog_data_nil, prog_segments_nil]
    refine ⟨by simp, by simp, ?_⟩
    intro j hj
    simp at hj
  | succ n ih =>
    intro data hlen addr k
    by_cases hd : data = []
    · subst hd
      rw [flash1_prog_data_nil, prog_segments_nil]
      refine ⟨by simp, by simp, ?_⟩
      intro j hj
      simp at hj
    · rw [flash1_prog_data_cons env k addr data hd,
        prog_segments_cons addr data hd]
      have hws := ws_pos addr data hd
      have hrest_len : (data.drop (min data.length (256 - addr % 256))).length
          ≤ n := by
        simp
        omega
      obtain ⟨ih1, ih2, ih3⟩ := ih
        (data.drop (min data.length (256 - addr % 256))) hrest_len
        ((addr + min data.length (256 - addr % 256)) % 4294967296) (k + 1)
      by_cases hwe : env.weRes k = 0
      · by_cases hpp : env.ppRes k = 0
        · by_cases hwa : env.waitRes k = 0
          · -- all three sub-operations of this iteration succeed
            have hok : okAt env k := ⟨hwe, hpp, hwa⟩
            rw [if_neg (not_not_intro hwe), if_neg (not_not_intro hpp),
              if_neg (not_not_intro hwa)]
            refine ⟨?_, ?_, ?_⟩
            · constructor
              · intro h0 i hi
                rcases Nat.eq_zero_or_pos i with hz | hip
                · subst hz
                  simpa using hok
                · obtain ⟨i', rfl⟩ := Nat.exists_eq_add_of_lt hip
                  simp only [List.length_cons] at hi
                  have hstep := ih1.mp h0 i' (by omega)
                  have harith : k + 1 + i' = k + (0 + i' + 1) := by omega
                  rwa [harith] at hstep
              · intro hall
                apply ih1.mpr
                intro i hi
                have hstep := hall (i + 1) (by simp; omega)
                have harith : k + (i + 1) = k + 1 + i := by omega
                rwa [harith] at hstep
            · intro hall
              have hall' : ∀ i <
                  (prog_segments
                    ((addr + min data.length (256 - addr % 256)) % 4294967296)
                    (data.drop (min data.length (256 - addr % 256)))).length,
                  okAt env (k + 1 + i) := by
                intro i hi
                have hstep := hall (i + 1) (by simp; omega)
                have harith : k + (i + 1) = k + 1 + i := by omega
                rwa [harith] at hstep
              rw [ih2 hall']
              simp [seg_events]
            · intro j hj hprev hfail
              cases j with
              | zero =>
                refine absurd ?_ hfail
                simpa using hok
              | succ j' =>
                simp only [List.length_cons] at hj
                have hprev' : ∀ i < j', okAt env (k + 1 + i) := by
                  intro i hi
                  have hstep := hprev (i + 1) (by omega)
                  have harith : k + (i + 1) = k + 1 + i := by omega
                  rwa [harith] at hstep
                have hfail' : ¬ okAt env (k + 1 + j') := by
                  have harith : k + 1 + j' = k + (j' + 1) := by omega
                  rwa [harith]
                obtain ⟨hres, tail, htr, htl⟩ :=
                  ih3 j' (by omega) hprev' hfail'
                refine ⟨hres, tail, ?_, htl⟩
                rw [List.take_succ_cons, List.flatMap_cons, htr]
                simp [seg_events]
          · -- the wait_ready of this iteration fails
            rw [if_neg (not_not_intro hwe), if_neg (not_not_intro hpp),
              if_pos hwa]
            refine ⟨?_, ?_, ?_⟩
            · apply iff_of_false (by simp)
              intro hall
              have h0 : okAt env (k + 0) := hall 0 (by simp)
              rw [Nat.add_zero] at h0
              obtain ⟨h1, h2, h3⟩ := h0
              exact hwa h3
            · intro hall
              have h0 : okAt env (k + 0) := hall 0 (by simp)
              rw [Nat.add_zero] at h0
              obtain ⟨h1, h2, h3⟩ := h0
              exact absurd h3 hwa
            · intro j hj hprev hfail
              cases j with
              | zero =>
                refine ⟨rfl, [PEv.we,
                  PEv.xfer (prog_cmd addr
                    (data.take (min data.length (256 - addr % 256)))),
                  PEv.wait], ?_, ?_⟩
                · simp
                · simp
              | succ j' =>
                have h0 : okAt env (k + 0) := hprev 0 (by omega)
                rw [Nat.add_zero] at h0
                obtain ⟨h1, h2, h3⟩ := h0
                exact absurd h3 hwa
        · -- the page-program transceive of this iteration fails
          rw [if_neg (not_not_intro hwe), if_pos hpp]
          refine ⟨?_, ?_, ?_⟩
          · apply iff_of_false (by simp)
            intro hall
            have h0 : okAt env (k + 0) := hall 0 (by simp)
            rw [Nat.add_zero] at h0
            obtain ⟨h1, h2, h3⟩ := h0
            exact hpp h2
          · intro hall
            have h0 : okAt env (k + 0) := hall 0 (by simp)
            rw [Nat.add_zero] at h0
            obtain ⟨h1, h2, h3⟩ := h0
            exact absurd h2 hpp
          · intro j hj hprev hfail
            cases j with
            | zero =>
              refine ⟨rfl, [PEv.we,
                PEv.xfer (prog_cmd addr
                  (data.take (min data.length (256 - addr % 256))))],
                ?_, ?_⟩
              · simp
              · simp
            | succ j' =>
              have h0 : okAt env (k + 0) := hprev 0 (by omega)
              rw [Nat.add_zero] at h0
              obtain ⟨h1, h2, h3⟩ := h0
              exact absurd h2 hpp
      · -- the write-enable of this iteration fails
        rw [if_pos hwe]
        refine ⟨?_, ?_, ?_⟩
        · apply iff_of_false (by simp)
          intro hall
          have h0 : okAt env (k + 0) := hall 0 (by simp)
          rw [Nat.add_zero] at h0
          obtain ⟨h1, h2, h3⟩ := h0
          exact hwe h1
        · intro hall
          have h0 : okAt env (k + 0) := hall 0 (by simp)
          rw [Nat.add_zero] at h0
          obtain ⟨h1, h2, h3⟩ := h0
          exact absurd h1 hwe
        · intro j hj hprev hfail
          cases j with
          | zero =>
            refine ⟨rfl, [PEv.we], ?_, ?_⟩
            · simp
            · simp
          | succ j' =>
            have h0 : okAt env (k + 0) := hprev 0 (by omega)
            rw [Nat.add_zero] at h0
            obtain ⟨h1, h2, h3⟩ := h0
            exact absurd h1 hwe

/-- The segments concatenate back to the original buffer. -/
lemma prog_segments_join (n : Nat) : ∀ data : List Nat, data.length ≤ n →
    ∀ addr, ((prog_segments addr data).map Prod.snd).flatten = data := by
  induction n with
  | zero =>
    intro data hlen addr
    have hd : data = [] := by
      cases data with
      | nil => rfl
      | cons a as => simp at hlen
    rw [hd, prog_segments_nil]
    simp
  | succ n ih =>
    intro data hlen addr
    by_cases hd : data = []
    · rw [hd, prog_segments_nil]
      simp
    · rw [prog_segments_cons addr data hd]
      have hws := ws_pos addr data hd
      simp only [List.map_cons, List.flatten_cons]
      rw [ih (data.drop (min data.length (256 - addr % 256)))
        (by simp; omega) _]
      exact List.take_append_drop _ data

/-- The segments are contiguous in address order. -/
lemma prog_segments_contig (n : Nat) : ∀ data : List Nat, data.length ≤ n →
    ∀ addr, seg_contiguous addr (prog_segments addr data) := by
  induction n with
  | zero =>
    intro data hlen addr
    have hd : data = [] := by
      cases data with
      | nil => rfl
      | cons a as => simp at hlen
    rw [hd, prog_segments_nil]
    trivial
  | succ n ih =>
    intro data hlen addr
    by_cases hd : data = []
    · rw [hd, prog_segments_nil]
      trivial
    · rw [prog_segments_cons addr data hd]
      have hws := ws_pos addr data hd
      have hwle : min data.length (256 - addr % 256) ≤ data.length :=
        Nat.min_le_left _ _
      refine ⟨rfl, ?_⟩
      have hlt : (data.take (min data.length (256 - addr % 256))).length =
          min data.length (256 - addr % 256) := by
        simp
      rw [hlt]
      exact ih (data.drop (min data.length (256 - addr % 256)))
        (by simp; omega) _

/-- The polling loop performs at most fuel status reads beyond index i. -/
lemma wait_ready_loop_count (status : Nat → Except Int Nat) :
    ∀ fuel i, (wait_ready_loop status i fuel).2 ≤ i + fuel := by
  intro fuel
  induction fuel with
  | zero =>
    intro i
    simp [wait_ready_loop]
  | succ fuel ih =>
    intro i
    rcases hst : status i with e | s
    · have heq : wait_ready_loop status i (fuel + 1) = (-5, i + 1) := by
        unfold wait_ready_loop
        rw [hst]
      rw [heq]
      omega
    · by_cases hs : s % 2 = 0
      · have heq : wait_ready_loop status i (fuel + 1) = (0, i + 1) := by
          unfold wait_ready_loop
          rw [hst]
          exact if_pos hs
        rw [heq]
        omega
      · have heq : wait_ready_loop status i (fuel + 1) =
            wait_ready_loop status (i + 1) fuel := by
          conv_lhs => unfold wait_ready_loop
          rw [hst]
          exact if_neg hs
        rw [heq]
        have := ih (i + 1)
        omega

/-- One unfolding step of the loop under an always-successful status
oracle. -/
lemma wait_ready_loop_step (sVal : Nat → Nat) (i fuel : Nat) :
    wait_ready_loop (fun m => Except.ok (sVal m)) i (fuel + 1) =
      if sVal i % 2 = 0 then ((0 : Int), i + 1)
      else wait_ready_loop (fun m => Except.ok (sVal m)) (i + 1) fuel := rfl

/-- If the busy bit is set on every poll the loop times out after exactly
fuel reads. -/
lemma wait_ready_loop_busy (sVal : Nat → Nat) :
    ∀ fuel i, (∀ t < fuel, sVal (i + t) % 2 = 1) →
    wait_ready_loop (fun m => Except.ok (sVal m)) i fuel = (-116, i + fuel) := by
  intro fuel
  induction fuel with
  | zero =>
    intro i _
    simp [wait_ready_loop]
  | succ fuel ih =>
    intro i hall
    rw [wait_ready_loop_step]
    have h0 : sVal i % 2 = 1 := by
      have := hall 0 (by omega)
      simpa using this
    rw [if_neg (by omega)]
    have hrec := ih (i + 1) (by
      intro t ht
      have := hall (t + 1) (by omega)
      have harith : i + (t + 1) = i + 1 + t := by omega
      rwa [harith] at this)
    rw [hrec]
    have harith : i + 1 + fuel = i + (fuel + 1) := by omega
    rw [harith]

/-- The loop returns success the moment a poll observes the busy bit
clear, having performed exactly j + 1 reads past index i. -/
lemma wait_ready_loop_clear (sVal : Nat → Nat) :
    ∀ fuel i j, j < fuel → (∀ t < j, sVal (i + t) % 2 = 1) →
    sVal (i + j) % 2 = 0 →
    wait_ready_loop (fun m => Except.ok (sVal m)) i fuel = (0, i + j + 1) := by
  intro fuel
  induction fuel with
  | zero =>
    intro i j hj
    omega
  | succ fuel ih =>
    intro i j hj hbusy hclear
    rw [wait_ready_loop_step]
    cases j with
    | zero =>
      rw [if_pos (by simpa using hclear)]
    | succ j' =>
      have h0 : sVal i % 2 = 1 := by
        have := hbusy 0 (by omega)
        simpa using this
      rw [if_neg (by omega)]
      have hrec := ih (i + 1) j' (by omega)
        (by
          intro t ht
          have := hbusy (t + 1) (by omega)
          have harith : i + (t + 1) = i + 1 + t := by omega
          rwa [harith] at this)
        (by
          have harith : i + (j' + 1) = i + 1 + j' := by omega
          rwa [harith] at hclear)
      rw [hrec]
      have harith : i + 1 + j' + 1 = i + (j' + 1) + 1 := by omega
      rw [harith]

/-- A timeout return means every poll in range observed the busy bit. -/
lemma wait_ready_loop_timeout (sVal : Nat → Nat) :
    ∀ fuel i,
    (wait_ready_loop (fun m => Except.ok (sVal m)) i fuel).1 = -116 →
    ∀ t < fuel, sVal (i + t) % 2 = 1 := by
  intro fuel
  induction fuel with
  | zero =>
    intro i _ t ht
    omega
  | succ fuel ih =>
    intro i hres t ht
    rw [wait_ready_loop_step] at hres
    by_cases hs : sVal i % 2 = 0
    · rw [if_pos hs] at hres
      simp at hres
    · rw [if_neg hs] at hres
      cases t with
      | zero =>
        simpa using Nat.mod_two_eq_zero_or_one (sVal i) |>.resolve_left hs
      | succ t' =>
        have := ih (i + 1) hres t' (by omega)
        have harith : i + 1 + t' = i + (t' + 1) := by omega
        rwa [harith] at this

/-- Looking up a name right after inserting it yields the inserted
content. -/
lemma lfs_lookup_insert (st : LfsState) (name : String) (c : List Nat) :
    lfs_lookup (lfs_insert st name c) name = some c := by
  unfold lfs_insert lfs_lookup
  simp

/-- Reading back the device state just written. -/
lemma fs_of_set_fs (st : FsPair) (device : flash_device_t) (l : LfsState) :
    fs_of (set_fs st device l) device = l := by
  cases device <;> rfl

/-- nor_flash_write_file succeeds and commits exactly the new buffer
whenever the buffer fits the device capacity: the open is
create-and-truncate, so the committed content is the buffer alone. -/
lemma nor_flash_write_file_spec (st : FsPair) (device : flash_device_t)
    (filename : String) (data : List Nat)
    (h : data.length ≤ nor_flash_get_device_size device) :
    nor_flash_write_file st device filename data =
      (0, set_fs st device (lfs_insert (fs_of st device) filename data)) := by
  have hopen : lfs_file_open (fs_of st device) filename ⟨true, true, true⟩ =
      Except.ok ⟨filename, []⟩ := by
    unfold lfs_file_open
    cases hc : lfs_lookup (fs_of st device) filename <;> simp
  unfold nor_flash_write_file
  rw [hopen]
  have hwr : lfs_file_write (nor_flash_get_device_size device)
      ⟨filename, []⟩ data = ((data.length : Int), ⟨filename, data⟩) := by
    unfold lfs_file_write
    rw [if_pos (by simpa using h)]
    simp
  simp only [hwr]
  rw [if_pos (by positivity)]
  unfold lfs_file_close
  simp

/-- nor_flash_read_file on an existing file, asked for exactly the file's
length, returns the full content. -/
lemma nor_flash_read_file_full (st : FsPair) (device : flash_device_t)
    (filename : String) (content : List Nat)
    (h : lfs_lookup (fs_of st device) filename = some content) :
    nor_flash_read_file st device filename content.length =
      ((content.length : Int), content) := by
  unfold nor_flash_read_file lfs_file_open
  rw [h]
  simp [lfs_file_read]

/-
Claim theorems.
-/

/-- C2 counterexample: the flash-1 read does NOT split long reads across
multiple transactions.  With a transport that would happily serve any
request, a read of 513 bytes (well within the 16 MiB chip) is rejected
with -EINVAL: the caller does observe the 512-byte single-transfer
bound. -/
theorem C2_counterexample :
    513 ≤ FLASH1_CHIP_SIZE_BYTES ∧
    flash1_read_data (fun _ n => Except.ok (List.replicate n 0)) 0 513 =
      Except.error (-22) := by
  constructor
  · decide
  · rfl

/-- C2 (amended): flash1_read_data issues a single read transaction and
returns the transport's bytes for every length up to 512; any longer
length is rejected with -EINVAL without issuing a transaction, so callers
do see the transport's single-transfer bound. -/
theorem C2_read_single_transaction
    (tr : List Nat → Nat → Except Int (List Nat)) (addr size : Nat) :
    (size ≤ 512 → flash1_read_data tr addr size = tr (read_cmd addr) size) ∧
    (512 < size → flash1_read_data tr addr size = Except.error (-22)) := by
  constructor
  · intro h
    unfold flash1_read_data
    rw [if_neg (by omega)]
  · intro h
    unfold flash1_read_data
    rw [if_pos (by omega)]

/-- Witness for C2_read_single_transaction at concrete inputs: a 100-byte
read goes through as one transaction, a 600-byte read is rejected. -/
theorem C2_read_single_transaction_witness :
    flash1_read_data (fun _ n => Except.ok (List.replicate n 7)) 5 100 =
      Except.ok (List.replicate 100 7) ∧
    flash1_read_data (fun _ n => Except.ok (List.replicate n 7)) 5 600 =
      Except.error (-22) :=
  ⟨(C2_read_single_transaction (fun _ n => Except.ok (List.replicate n 7))
      5 100).1 (by omega),
   (C2_read_single_transaction (fun _ n => Except.ok (List.replicate n 7))
      5 600).2 (by omega)⟩

/-- C4: the mount step mounts; exactly when that fails it formats and
mounts again; success iff the first mount succeeds or format and second
mount both succeed; fatal -EIO iff the format or the post-format mount
fails; a format is never attempted after a successful mount. -/
theorem C4_mount_format_state_machine (m1 f m2 : Int) :
    ((lfs_init_mount m1 f m2).1 = 0 ↔ m1 = 0 ∨ (f = 0 ∧ m2 = 0)) ∧
    ((lfs_init_mount m1 f m2).1 = -5 ↔ m1 ≠ 0 ∧ (f ≠ 0 ∨ m2 ≠ 0)) ∧
    (m1 = 0 → lfs_init_mount m1 f m2 = (0, [MEv.mount])) ∧
    (m1 ≠ 0 → f ≠ 0 →
      lfs_init_mount m1 f m2 = (-5, [MEv.mount, MEv.format])) ∧
    (m1 ≠ 0 → f = 0 → m2 ≠ 0 →
      lfs_init_mount m1 f m2 = (-5, [MEv.mount, MEv.format, MEv.mount])) ∧
    (m1 ≠ 0 → f = 0 → m2 = 0 →
      lfs_init_mount m1 f m2 = (0, [MEv.mount, MEv.format, MEv.mount])) ∧
    (MEv.format ∈ (lfs_init_mount m1 f m2).2 ↔ m1 ≠ 0) := by
  unfold lfs_init_mount
  by_cases h1 : m1 = 0 <;> by_cases h2 : f = 0 <;> by_cases h3 : m2 = 0 <;>
    simp [h1, h2, h3]

/-- Witness for C4: a failed first mount (littleFS corrupt-filesystem
error -84) followed by a successful format and mount yields overall
success with the trace mount, format, mount. -/
theorem C4_mount_format_state_machine_witness :
    lfs_init_mount (-84) 0 0 = (0, [MEv.mount, MEv.format, MEv.mount]) :=
  (C4_mount_format_state_machine (-84) 0 0).2.2.2.2.2.1 (by decide) rfl rfl

/-- C5 counterexample: the size-mismatch condition is NOT signalled
distinctly from the generic I/O error.  Reading a 16-byte file as a
32-byte record fails, but with exactly LFS_ERR_IO (-5), the same code the
block layer and read path use for every generic I/O failure. -/
theorem C5_counterexample :
    nor_flash_read_struct ⟨[("r.bin", List.replicate 16 1)], []⟩
      flash_device_t.FLASH1 "r.bin" 32 = lfs_err_io ∧
    lfs_err_io = -5 := by
  constructor
  · rfl
  · rfl

/-- C5 (amended): read_struct fails whenever the byte count returned by
the read differs from the expected record size s, and succeeds (returns
0) when the count equals s; the mismatch is reported as -EIO, which is
distinct from the not-found code LFS_ERR_NOENT but identical to the
filesystem's generic I/O error code LFS_ERR_IO. -/
theorem C5_read_struct_size_check (st : FsPair) (device : flash_device_t)
    (filename : String) (size : Nat) :
    ((nor_flash_read_file st device filename size).1 ≥ 0 →
      (nor_flash_read_file st device filename size).1 ≠ (size : Int) →
      nor_flash_read_struct st device filename size = lfs_err_io) ∧
    ((nor_flash_read_file st device filename size).1 = (size : Int) →
      nor_flash_read_struct st device filename size = 0) ∧
    ((nor_flash_read_file st device filename size).1 < 0 →
      nor_flash_read_struct st device filename size =
        (nor_flash_read_file st device filename size).1) ∧
    lfs_err_io ≠ lfs_err_noent ∧ lfs_err_io = -5 := by
  refine ⟨?_, ?_, ?_, by decide, rfl⟩
  · intro hge hne
    unfold nor_flash_read_struct
    rw [if_neg (by omega), if_pos hne]
    rfl
  · intro heq
    unfold nor_flash_read_struct
    rw [if_neg (by omega), if_neg (by omega)]
  · intro hlt
    unfold nor_flash_read_struct
    rw [if_pos hlt]

/-- Witness for C5_read_struct_size_check: a 4-byte file read back as a
4-byte record succeeds; the same file requested as an 8-byte record
fails with -EIO; a missing file propagates LFS_ERR_NOENT. -/
theorem C5_read_struct_size_check_witness :
    nor_flash_read_struct ⟨[("a.bin", [1, 2, 3, 4])], []⟩
      flash_device_t.FLASH1 "a.bin" 4 = 0 ∧
    nor_flash_read_struct ⟨[("a.bin", [1, 2, 3, 4])], []⟩
      flash_device_t.FLASH1 "a.bin" 8 = lfs_err_io ∧
    nor_flash_read_struct ⟨[], []⟩ flash_device_t.FLASH1 "a.bin" 4 =
      lfs_err_noent :=
  ⟨(C5_read_struct_size_check ⟨[("a.bin", [1, 2, 3, 4])], []⟩
      flash_device_t.FLASH1 "a.bin" 4).2.1 (by rfl),
   (C5_read_struct_size_check ⟨[("a.bin", [1, 2, 3, 4])], []⟩
      flash_device_t.FLASH1 "a.bin" 8).1 (by decide) (by decide),
   by
    have h := (C5_read_struct_size_check ⟨[], []⟩
      flash_device_t.FLASH1 "a.bin" 4).2.2.1 (by decide)
    rw [h]
    rfl⟩

/-- C6: after a successful JEDEC identity read, an exact match proceeds;
a mismatched identity with the Macronix vendor byte 0xC2 is a warning and
init still succeeds; init fails with the device-absent error -ENODEV
exactly when the vendor byte is not 0xC2. -/
theorem C6_jedec_identity_check (i0 i1 i2 : Nat)
    (h0 : i0 < 256) (h1 : i1 < 256) (h2 : i2 < 256) :
    (i0 * 65536 + i1 * 256 + i2 = FLASH1_CHIP_JEDEC_ID →
      flash1_init true true (Except.ok (i0, i1, i2)) = 0) ∧
    (i0 * 65536 + i1 * 256 + i2 ≠ FLASH1_CHIP_JEDEC_ID → i0 = 0xC2 →
      flash1_init true true (Except.ok (i0, i1, i2)) = 0) ∧
    (flash1_init true true (Except.ok (i0, i1, i2)) = -19 ↔ i0 ≠ 0xC2) ∧
    (flash1_init true true (Except.ok (i0, i1, i2)) = 0 ↔ i0 = 0xC2) := by
  by_cases hj : i0 * 65536 + i1 * 256 + i2 = FLASH1_CHIP_JEDEC_ID
  · have hi0 : i0 = 0xC2 := by
      unfold FLASH1_CHIP_JEDEC_ID at hj
      omega
    simp [flash1_init, hj, hi0]
  · by_cases hv : i0 = 0xC2 <;> simp [flash1_init, hj, hv]

/-- Witness for C6: the 32-Mbit Macronix identity 0xC22019 mismatches the
expected 0xC22018 but init still succeeds (warn-and-continue); a
non-Macronix identity fails with -ENODEV. -/
theorem C6_jedec_identity_check_witness :
    flash1_init true true (Except.ok (194, 32, 25)) = 0 ∧
    flash1_init true true (Except.ok (1, 2, 3)) = -19 :=
  ⟨(C6_jedec_identity_check 194 32 25 (by omega) (by omega)
      (by omega)).2.2.2.mpr rfl,
   (C6_jedec_identity_check 1 2 3 (by omega) (by omega)
      (by omega)).2.2.1.mpr (by decide)⟩

/-- C8: with every status-register read succeeding, flash1_wait_ready
performs at most 1000 polls, returns success the moment a poll observes
the busy bit (bit 0) clear — having polled exactly once per busy
observation plus the final clear one — and returns -ETIMEDOUT exactly
when the busy bit is set in all 1000 polls. -/
theorem C8_wait_ready_poll (sVal : Nat → Nat) :
    ((flash1_wait_ready (fun i => Except.ok (sVal i))).2 ≤ 1000) ∧
    ((∀ i < 1000, sVal i % 2 = 1) →
      flash1_wait_ready (fun i => Except.ok (sVal i)) = (-116, 1000)) ∧
    (∀ j < 1000, (∀ i < j, sVal i % 2 = 1) → sVal j % 2 = 0 →
      flash1_wait_ready (fun i => Except.ok (sVal i)) = (0, j + 1)) ∧
    ((flash1_wait_ready (fun i => Except.ok (sVal i))).1 = -116 ↔
      ∀ i < 1000, sVal i % 2 = 1) := by
  unfold flash1_wait_ready
  refine ⟨?_, ?_, ?_, ?_⟩
  · have h := wait_ready_loop_count (fun i => Except.ok (sVal i)) 1000 0
    simpa using h
  · intro hall
    have h := wait_ready_loop_busy sVal 1000 0 (by
      intro t ht
      simpa using hall t ht)
    simpa using h
  · intro j hj hbusy hclear
    have h := wait_ready_loop_clear sVal 1000 0 j hj (by
      intro t ht
      simpa using hbusy t ht) (by simpa using hclear)
    simpa using h
  · constructor
    · intro hres i hi
      have h := wait_ready_loop_timeout sVal 1000 0 hres i hi
      simpa using h
    · intro hall
      have h := wait_ready_loop_busy sVal 1000 0 (by
        intro t ht
        simpa using hall t ht)
      rw [h]
  
/-- Witness for C8: an always-busy chip times out after exactly 1000
polls; a chip that is busy for 3 polls and then ready yields success at
the 4th poll. -/
theorem C8_wait_ready_poll_witness :
    flash1_wait_ready (fun _ => Except.ok 1) = (-116, 1000) ∧
    flash1_wait_ready (fun i => Except.ok (if i < 3 then 1 else 0)) =
      (0, 4) :=
  ⟨(C8_wait_ready_poll (fun _ => 1)).2.1 (fun i _ => rfl),
   (C8_wait_ready_poll (fun i => if i < 3 then 1 else 0)).2.2.1 3
     (by omega) (fun i hi => by rw [if_pos hi]) (by rfl)⟩

/-- C9: every flash-1 command frame for read, page-program and
sector-erase encodes only the low 24 bits of the byte address, so an
address aliases its value mod 2^24; the header's 32 MiB and 64 MiB chip
options exceed 2^24 bytes, and there the distinct in-range addresses 0
and 2^24 produce identical command frames. -/
theorem C9_three_byte_addressing :
    (∀ addr, read_cmd addr = read_cmd (addr % 16777216)) ∧
    (∀ addr seg, prog_cmd addr seg = prog_cmd (addr % 16777216) seg) ∧
    (∀ addr, erase_cmd addr = erase_cmd (addr % 16777216)) ∧
    chip_size_bytes 32 = some 33554432 ∧
    chip_size_bytes 64 = some 67108864 ∧
    (16777216 : Nat) ≠ 0 ∧ (16777216 : Nat) < 33554432 ∧
    read_cmd 16777216 = read_cmd 0 ∧
    erase_cmd 16777216 = erase_cmd 0 ∧
    (∀ seg, prog_cmd 16777216 seg = prog_cmd 0 seg) := by
  have haddr : ∀ addr : Nat,
      addr / 65536 % 256 = addr % 16777216 / 65536 % 256 ∧
      addr / 256 % 256 = addr % 16777216 / 256 % 256 ∧
      addr % 256 = addr % 16777216 % 256 := by
    intro addr
    refine ⟨?_, ?_, ?_⟩ <;> omega
  refine ⟨?_, ?_, ?_, rfl, rfl, by decide, by decide, by decide, by decide,
    ?_⟩
  · intro addr
    unfold read_cmd
    rw [(haddr addr).1, (haddr addr).2.1, (haddr addr).2.2]
  · intro addr seg
    unfold prog_cmd
    rw [(haddr addr).1, (haddr addr).2.1, (haddr addr).2.2]
  · intro addr
    unfold erase_cmd
    rw [(haddr addr).1, (haddr addr).2.1, (haddr addr).2.2]
  · intro seg
    unfold prog_cmd
    norm_num

/-- C7: the block-device callbacks of both devices compute the byte
address block * 4096 + off (block * 4096 for erase), delegate to the
flash-1 protocol driver (device one) or the vendor flash primitives
(device two), collapse every underlying driver error to the single
generic code LFS_ERR_IO, and sync returns LFS_ERR_OK without issuing any
device operation. -/
theorem C7_block_device_callbacks :
    (∀ b o, b * FLASH_SECTOR_SIZE + o < 4294967296 →
      block_addr b o = b * 4096 + o) ∧
    (∀ tr b o s,
      ((flash1_read_data tr (block_addr b o) s).isOk = true →
        lfs1_read tr b o s = 0) ∧
      (∀ e, flash1_read_data tr (block_addr b o) s = Except.error e →
        lfs1_read tr b o s = lfs_err_io)) ∧
    (∀ env b o d,
      (lfs1_prog env b o d = 0 ↔
        (flash1_prog_data env 0 (block_addr b o) d).1 = 0) ∧
      (lfs1_prog env b o d = 0 ∨ lfs1_prog env b o d = lfs_err_io)) ∧
    (∀ env b,
      (lfs1_erase env b = 0 ↔
        (flash1_erase_sector env (block_addr b 0)).1 = 0) ∧
      (lfs1_erase env b = 0 ∨ lfs1_erase env b = lfs_err_io)) ∧
    lfs1_sync = (0, []) ∧
    (∀ fr b o s, (lfs2_read fr b o s = 0 ↔ fr (block_addr b o) s = 0) ∧
      (lfs2_read fr b o s = 0 ∨ lfs2_read fr b o s = lfs_err_io)) ∧
    (∀ fw b o d, (lfs2_prog fw b o d = 0 ↔ fw (block_addr b o) d = 0) ∧
      (lfs2_prog fw b o d = 0 ∨ lfs2_prog fw b o d = lfs_err_io)) ∧
    (∀ fe b,
      (lfs2_erase fe b = 0 ↔ fe (block_addr b 0) FLASH_SECTOR_SIZE = 0) ∧
      (lfs2_erase fe b = 0 ∨ lfs2_erase fe b = lfs_err_io)) ∧
    lfs2_sync = (0, []) := by
  refine ⟨?_, ?_, ?_, ?_, rfl, ?_, ?_, ?_, rfl⟩
  · intro b o h
    unfold block_addr
    unfold FLASH_SECTOR_SIZE at h ⊢
    omega
  · intro tr b o s
    constructor
    · intro hok
      unfold lfs1_read
      cases hc : flash1_read_data tr (block_addr b o) s with
      | ok v => rfl
      | error e =>
        rw [hc] at hok
        simp [Except.isOk, Except.toBool] at hok
    · intro e he
      unfold lfs1_read
      rw [he]
  · intro env b o d
    unfold lfs1_prog
    by_cases h : (flash1_prog_data env 0 (block_addr b o) d).1 = 0
    · rw [if_pos h]
      simp [h]
    · rw [if_neg h]
      constructor
      · constructor
        · intro hc
          exact absurd hc (by decide)
        · intro hc
          exact absurd hc h
      · right
        rfl
  · intro env b
    unfold lfs1_erase
    by_cases h : (flash1_erase_sector env (block_addr b 0)).1 = 0
    · rw [if_pos h]
      simp [h]
    · rw [if_neg h]
      constructor
      · constructor
        · intro hc
          exact absurd hc (by decide)
        · intro hc
          exact absurd hc h
      · right
        rfl
  · intro fr b o s
    unfold lfs2_read
    by_cases h : fr (block_addr b o) s = 0
    · rw [if_pos h]
      simp [h]
    · rw [if_neg h]
      constructor
      · constructor
        · intro hc
          exact absurd hc (by decide)
        · intro hc
          exact absurd hc h
      · right
        rfl
  · intro fw b o d
    unfold lfs2_prog
    by_cases h : fw (block_addr b o) d = 0
    · rw [if_pos h]
      simp [h]
    · rw [if_neg h]
      constructor
      · constructor
        · intro hc
          exact absurd hc (by decide)
        · intro hc
          exact absurd hc h
      · right
        rfl
  · intro fe b
    unfold lfs2_erase
    by_cases h : fe (block_addr b 0) FLASH_SECTOR_SIZE = 0
    · rw [if_pos h]
      simp [h]
    · rw [if_neg h]
      constructor
      · constructor
        · intro hc
          exact absurd hc (by decide)
        · intro hc
          exact absurd hc h
      · right
        rfl

/-- Witness for C7: concrete address computation (block 3, offset 17) and
a concrete successful device-two read. -/
theorem C7_block_device_callbacks_witness :
    block_addr 3 17 = 12305 ∧
    lfs2_read (fun _ _ => 0) 3 17 129 = 0 := by
  constructor
  · have h := C7_block_device_callbacks.1 3 17 (by decide)
    rw [h]
  · exact (C7_block_device_callbacks.2.2.2.2.2.1 (fun _ _ => 0) 3 17
      129).1.mpr rfl

/-- C1: flash1_prog_data splits every write at each 256-byte page
boundary — every issued page-program segment is nonempty and lies within
one page, the segments cover the buffer contiguously in address order
(with the uint32 wrap of the C address arithmetic), each segment is
immediately preceded by a write-enable and followed by a busy-poll wait,
the operation returns 0 iff every segment's sub-operations succeed, and
the first failing segment aborts all remaining segments and surfaces
-EIO. -/
theorem C1_prog_page_boundary_split (env : ProgEnv) (addr : Nat)
    (data : List Nat) :
    (∀ p ∈ prog_segments addr data,
      p.2 ≠ [] ∧ p.1 % 256 + p.2.length ≤ FLASH_PAGE_SIZE) ∧
    ((prog_segments addr data).map Prod.snd).flatten = data ∧
    seg_contiguous addr (prog_segments addr data) ∧
    ((flash1_prog_data env 0 addr data).1 = 0 ↔
      ∀ i < (prog_segments addr data).length, okAt env i) ∧
    ((∀ i < (prog_segments addr data).length, okAt env i) →
      flash1_prog_data env 0 addr data =
        (0, (prog_segments addr data).flatMap seg_events)) ∧
    (∀ j < (prog_segments addr data).length,
      (∀ i < j, okAt env i) → ¬ okAt env j →
      (flash1_prog_data env 0 addr data).1 = -5 ∧
      ∃ tail, (flash1_prog_data env 0 addr data).2 =
        ((prog_segments addr data).take j).flatMap seg_events ++ tail ∧
        tail.length ≤ 3) := by
  have hspec := flash1_prog_data_spec env data.length data le_rfl addr 0
  simp only [Nat.zero_add] at hspec
  exact ⟨prog_segments_page data.length data le_rfl addr,
    prog_segments_join data.length data le_rfl addr,
    prog_segments_contig data.length data le_rfl addr,
    hspec.1, hspec.2.1, hspec.2.2⟩

/-- Witness for C1: with all sub-operations succeeding, a 10-byte program
starting at address 250 crosses a page boundary and issues exactly the
two segment traces. -/
theorem C1_prog_page_boundary_split_witness :
    flash1_prog_data ⟨fun _ => 0, fun _ => 0, fun _ => 0⟩ 0 250
        (List.replicate 10 1) =
      (0, (prog_segments 250 (List.replicate 10 1)).flatMap seg_events) :=
  (C1_prog_page_boundary_split ⟨fun _ => 0, fun _ => 0, fun _ => 0⟩ 250
    (List.replicate 10 1)).2.2.2.2.1 (fun i _ => ⟨rfl, rfl, rfl⟩)

/-- C3 (littleFS modelled from the spec): for every device, filename and
buffer B no longer than the chip capacity, nor_flash_write_file succeeds
and an immediately following nor_flash_read_file of B.length bytes
returns exactly B. -/
theorem C3_write_read_round_trip (st : FsPair) (device : flash_device_t)
    (filename : String) (B : List Nat)
    (hlen : B.length ≤ nor_flash_get_device_size device) :
    (nor_flash_write_file st device filename B).1 = 0 ∧
    nor_flash_read_file (nor_flash_write_file st device filename B).2
      device filename B.length = ((B.length : Int), B) := by
  rw [nor_flash_write_file_spec st device filename B hlen]
  refine ⟨rfl, ?_⟩
  apply nor_flash_read_file_full
  rw [fs_of_set_fs]
  exact lfs_lookup_insert _ _ _

set_option maxRecDepth 8000 in
/-- Witness for C3: a 300-byte buffer — longer than one 256-byte page —
round-trips byte for byte on device one. -/
theorem C3_write_read_round_trip_witness :
    (nor_flash_write_file ⟨[], []⟩ flash_device_t.FLASH1 "t.bin"
      (List.replicate 300 7)).1 = 0 ∧
    nor_flash_read_file
      (nor_flash_write_file ⟨[], []⟩ flash_device_t.FLASH1 "t.bin"
        (List.replicate 300 7)).2 flash_device_t.FLASH1 "t.bin" 300 =
      (300, List.replicate 300 7) := by
  have h := C3_write_read_round_trip ⟨[], []⟩ flash_device_t.FLASH1 "t.bin"
    (List.replicate 300 7) (by decide)
  simpa using h

/-- C10 (littleFS modelled from the spec): nor_flash_write_file opens
with create-and-truncate, so a successful write over a pre-existing file
leaves exactly the newly written bytes, regardless of the old content. -/
theorem C10_write_file_truncates (st : FsPair) (device : flash_device_t)
    (filename : String) (old new : List Nat)
    (hex : lfs_lookup (fs_of st device) filename = some old)
    (hlen : new.length ≤ nor_flash_get_device_size device) :
    (nor_flash_write_file st device filename new).1 = 0 ∧
    lfs_lookup
      (fs_of (nor_flash_write_file st device filename new).2 device)
      filename = some new := by
  rw [nor_flash_write_file_spec st device filename new hlen]
  refine ⟨rfl, ?_⟩
  rw [fs_of_set_fs]
  exact lfs_lookup_insert _ _ _

/-- Witness for C10: overwriting a longer pre-existing file with a
2-byte buffer leaves exactly the 2 bytes. -/
theorem C10_write_file_truncates_witness :
    (nor_flash_write_file ⟨[("a.bin", List.replicate 5 1)], []⟩
      flash_device_t.FLASH1 "a.bin" [9, 9]).1 = 0 ∧
    lfs_lookup
      (fs_of (nor_flash_write_file ⟨[("a.bin", List.replicate 5 1)], []⟩
        flash_device_t.FLASH1 "a.bin" [9, 9]).2 flash_device_t.FLASH1)
      "a.bin" = some [9, 9] :=
  C10_write_file_truncates ⟨[("a.bin", List.replicate 5 1)], []⟩
    flash_device_t.FLASH1 "a.bin" (List.replicate 5 1) [9, 9] (by rfl)
    (by decide)
